import Mathlib

/-!
# Greeting server (`main.go`)

A shallow embedding of the single-file Go program

```go
func main() {
	fmt.Println("Hello, World!" + uuid.New().String())

	http.ListenAndServe(":8080", http.HandlerFunc(func(w http.ResponseWriter, r *http.Request) {
		fmt.Fprint(w, "Hello, World!"+uuid.New().String())
	}))
}
```

Effects are made explicit: the program runs over a `World` holding the read
position in the process entropy stream and the trace of observable events
(writes to standard output, the listen attempt, the responses written by
handlers).  Bytes are natural numbers reduced `% 256`.
-/

namespace Articles

/-! ## Data model -/

namespace http

/-- The parts of an incoming `*http.Request` a handler can look at. -/
structure Request where
  Method : String
  Path : String
  RawQuery : String
  Header : List (String × String)
  Body : String
deriving DecidableEq, Repr

/-- What a handler has put into its `http.ResponseWriter`: whether the status
line has been fixed, the status code, and the body bytes written so far. -/
structure ResponseWriter where
  wroteHeader : Bool
  status : Nat
  body : String
deriving DecidableEq, Repr

/-- The constant `http.StatusOK`. -/
def StatusOK : Nat := 200

/-- The writer the server hands to a handler for a new request. -/
def newResponse : ResponseWriter := ⟨false, 0, ""⟩

/-- `WriteHeader(code)`: fixes the status code; later calls are ignored. -/
def ResponseWriter.WriteHeader (w : ResponseWriter) (code : Nat) : ResponseWriter :=
  if w.wroteHeader then w else { w with wroteHeader := true, status := code }

/-- `Write(p)`: the first write sends an implicit `WriteHeader(StatusOK)`, then
the bytes are appended to the body. -/
def ResponseWriter.Write (w : ResponseWriter) (p : String) : ResponseWriter :=
  let w1 := if w.wroteHeader then w else w.WriteHeader StatusOK
  { w1 with body := w1.body ++ p }

/-- The server completes a response once the handler has returned: a handler
that wrote nothing still gets status 200. -/
def ResponseWriter.finishRequest (w : ResponseWriter) : ResponseWriter :=
  if w.wroteHeader then w else w.WriteHeader StatusOK

end http

/-- Observable effects of the process, in the order they happen. -/
inductive Event where
  /-- One write call on `os.Stdout`. -/
  | stdout (s : String)
  /-- The attempt to listen on a TCP address, and whether it succeeded. -/
  | listen (addr : String) (ok : Bool)
  /-- A handler returned for request `req`, having produced this status and body. -/
  | response (req : http.Request) (status : Nat) (body : String)
deriving DecidableEq, Repr

/-- Whether an event is a write to standard output. -/
def Event.isStdout : Event → Bool
  | .stdout _ => true
  | _ => false

/-- Process state threaded through the program: the number of bytes already
read from the entropy stream and the events so far (oldest first).  The
program declares no variables of its own, so nothing else is carried. -/
structure World where
  randPos : Nat
  trace : List Event
deriving DecidableEq, Repr

/-- The start of a run: nothing read, nothing observed. -/
def World.init : World := ⟨0, []⟩

/-- How a run of `main` stands at the end of the observed events. -/
inductive Outcome where
  /-- The function `main` returned or the process exited, with this exit status. -/
  | exited (code : Nat)
  /-- The function `main` is still blocked inside `ListenAndServe`. -/
  | serving
deriving DecidableEq, Repr

/-- Abnormal termination: the process ended with a nonzero exit status. -/
def Outcome.abnormal : Outcome → Bool
  | .exited code => code != 0
  | .serving => false

/-- What the program does not control: the entropy byte stream (byte `i` of
the stream is `rander i % 256`), whether the listener can bind, and the
requests whose handlers run, in the order they draw their identifiers. -/
structure Env where
  rander : Nat → Nat
  bindOk : Bool
  requests : List http.Request

/-! ## Identifier generator -/

namespace io

/-- `io.ReadFull(r, buf)` on the entropy stream: the next `n` bytes from
position `pos`. -/
def ReadFull (r : Nat → Nat) (pos n : Nat) : List Nat :=
  (List.range n).map (fun i => r (pos + i) % 256)

end io

namespace hex

/-- The table of `encoding/hex`. -/
def hextable : String := "0123456789abcdef"

/-- Indexing `hextable[i]`. -/
def digit (i : Nat) : Char := hextable.data.getD i '0'

/-- Modelled from the spec: `hex.Encode` of the Go standard library, used by the
identifier formatter (not under src/): two lower-case hexadecimal digits per
byte, high nibble first. -/
def Encode : List Nat → List Char
  | [] => []
  | v :: src => digit (v >>> 4) :: digit (v &&& 0x0f) :: Encode src

end hex

namespace uuid

/-- Modelled from the spec: the identifier type of the generator package
`github.com/google/uuid` (not under src/), a 128-bit value held as 16 bytes. -/
structure UUID where
  bytes : List Nat
deriving DecidableEq, Repr

/-- A well-formed identifier value: exactly 16 entries, each a byte. -/
def UUID.WF (u : UUID) : Prop := u.bytes.length = 16 ∧ ∀ b ∈ u.bytes, b < 256

instance (u : UUID) : Decidable u.WF := by unfold UUID.WF; infer_instance

/-- Modelled from the spec: the formatter of the generator package (not under
src/): the standard `xxxxxxxx-xxxx-xxxx-xxxx-xxxxxxxxxxxx` layout, hexadecimal
groups of 4, 2, 2, 2 and 6 bytes separated by hyphens. -/
def encodeHex (u : UUID) : List Char :=
  hex.Encode (u.bytes.take 4) ++ '-' ::
  hex.Encode ((u.bytes.drop 4).take 2) ++ '-' ::
  hex.Encode ((u.bytes.drop 6).take 2) ++ '-' ::
  hex.Encode ((u.bytes.drop 8).take 2) ++ '-' ::
  hex.Encode (u.bytes.drop 10)

/-- Modelled from the spec: the method `String()` of the generator package (not
under src/): the canonical 36-character identifier string. -/
def UUID.String (u : UUID) : String := ⟨encodeHex u⟩

/-- Modelled from the spec: `uuid.NewRandomFromReader` of the generator package
(not under src/): 16 bytes are read from the entropy stream and the
version/variant bits are set per the standard scheme for random identifiers
(version 4 in the high nibble of byte 6, variant `10` in the top bits of
byte 8). -/
def NewRandomFromReader (r : Nat → Nat) (pos : Nat) : UUID × Nat :=
  let raw := io.ReadFull r pos 16
  let b1 := raw.set 6 ((raw.getD 6 0 &&& 0x0f) ||| 0x40)
  let b2 := b1.set 8 ((b1.getD 8 0 &&& 0x3f) ||| 0x80)
  (⟨b2⟩, pos + 16)

/-- Modelled from the spec: `uuid.New()` of the generator package (not under
src/): a fresh random identifier, drawn from the process entropy stream at the
current read position, which advances past the bytes consumed. -/
def New (r : Nat → Nat) (σ : World) : UUID × World :=
  let (u, pos) := NewRandomFromReader r σ.randPos
  (u, { σ with randPos := pos })

end uuid

/-! ## Formatted output -/

namespace fmt

/-- `fmt.Sprint` on string operands: they are concatenated (a space is only
added between operands when neither is a string). -/
def Sprint (a : List String) : String := String.join a

/-- `fmt.Sprintln` on string operands: separated by spaces, newline appended. -/
def Sprintln (a : List String) : String := " ".intercalate a ++ "\n"

/-- `fmt.Fprint(w, a...)` with an `http.ResponseWriter` as the writer: one
`Write` of the formatted operands. -/
def Fprint (w : http.ResponseWriter) (a : List String) : http.ResponseWriter :=
  w.Write (Sprint a)

/-- `fmt.Println(a...)`: one write of the formatted line to standard output. -/
def Println (a : List String) (σ : World) : World :=
  { σ with trace := σ.trace ++ [Event.stdout (Sprintln a)] }

end fmt

/-! ## The server and the program -/

namespace http

/-- The type `http.HandlerFunc`, with the process state made explicit. -/
abbrev HandlerFunc := ResponseWriter → Request → World → ResponseWriter × World

/-- One request served: the handler runs on a new writer, the response is
completed and recorded. -/
def serve (h : HandlerFunc) (σ : World) (req : Request) : World :=
  let (w, σ1) := h newResponse req σ
  let w1 := w.finishRequest
  { σ1 with trace := σ1.trace ++ [Event.response req w1.status w1.body] }

/-- `http.ListenAndServe(addr, handler)`.  A failed bind returns an error at
once (`true`); otherwise the accepted requests are served and the call has
not returned (`false`). -/
def ListenAndServe (env : Env) (addr : String) (h : HandlerFunc) (σ : World) :
    Bool × World :=
  let σ1 := { σ with trace := σ.trace ++ [Event.listen addr env.bindOk] }
  if env.bindOk then (false, env.requests.foldl (serve h) σ1) else (true, σ1)

end http

/-- The request handler closure of `main`:
`func(w, r) { fmt.Fprint(w, "Hello, World!"+uuid.New().String()) }`. -/
def handler (rander : Nat → Nat) : http.HandlerFunc := fun w _r σ =>
  let (u, σ1) := uuid.New rander σ
  (fmt.Fprint w ["Hello, World!" ++ u.String], σ1)

/-- The function `main`.  The value returned by `ListenAndServe` is dropped;
when the call returns, `main` returns and the process exits with status 0. -/
def main (env : Env) : Outcome × World :=
  let (u, σ1) := uuid.New env.rander World.init
  let σ2 := fmt.Println ["Hello, World!" ++ u.String] σ1
  let (returned, σ3) := http.ListenAndServe env ":8080" (handler env.rander) σ2
  (if returned then Outcome.exited 0 else Outcome.serving, σ3)

/-- The recorded responses of the handler for requests served one after the
other from read position `pos` (used to describe the trace of a run). -/
def served (r : Nat → Nat) : Nat → List http.Request → List Event
  | _, [] => []
  | pos, req :: rs =>
    Event.response req 200
        ("Hello, World!" ++ (uuid.NewRandomFromReader r pos).1.String) ::
      served r (pos + 16) rs

/-- The index in the identifier string of the first digit of byte `j`: two
digits per byte, plus the hyphens that come before the byte's group. -/
def digitPos (j : Nat) : Nat :=
  2 * j + (if 10 ≤ j then 4 else if 8 ≤ j then 3 else if 6 ≤ j then 2 else if 4 ≤ j then 1 else 0)

/-! ## Auxiliary lemmas -/

theorem ReadFull_sixteen (r : Nat → Nat) (pos : Nat) :
    io.ReadFull r pos 16 =
      [r (pos + 0) % 256, r (pos + 1) % 256, r (pos + 2) % 256, r (pos + 3) % 256,
       r (pos + 4) % 256, r (pos + 5) % 256, r (pos + 6) % 256, r (pos + 7) % 256,
       r (pos + 8) % 256, r (pos + 9) % 256, r (pos + 10) % 256, r (pos + 11) % 256,
       r (pos + 12) % 256, r (pos + 13) % 256, r (pos + 14) % 256, r (pos + 15) % 256] := rfl

theorem Sprint_single (s : String) : fmt.Sprint [s] = s := by
  simp [fmt.Sprint, String.join]

theorem Sprintln_single (s : String) : fmt.Sprintln [s] = s ++ "\n" := rfl

theorem New_fst (r : Nat → Nat) (σ : World) :
    (uuid.New r σ).1 = (uuid.NewRandomFromReader r σ.randPos).1 := rfl

theorem New_snd (r : Nat → Nat) (σ : World) :
    (uuid.New r σ).2 = ⟨σ.randPos + 16, σ.trace⟩ := rfl

theorem handler_eq (r : Nat → Nat) (w : http.ResponseWriter) (req : http.Request) (σ : World) :
    handler r w req σ =
      (w.Write ("Hello, World!" ++ (uuid.NewRandomFromReader r σ.randPos).1.String),
        ⟨σ.randPos + 16, σ.trace⟩) := by
  simp [handler, fmt.Fprint, Sprint_single, uuid.New, uuid.NewRandomFromReader]

theorem Write_new (p : String) :
    (http.newResponse.Write p).finishRequest = ⟨true, 200, p⟩ := by
  simp [http.ResponseWriter.Write, http.newResponse, http.ResponseWriter.WriteHeader,
    http.ResponseWriter.finishRequest, http.StatusOK]

theorem serve_handler (r : Nat → Nat) (σ : World) (req : http.Request) :
    http.serve (handler r) σ req =
      ⟨σ.randPos + 16, σ.trace ++ [Event.response req 200
        ("Hello, World!" ++ (uuid.NewRandomFromReader r σ.randPos).1.String)]⟩ := by
  simp [http.serve, handler_eq, Write_new]

theorem foldl_serve (r : Nat → Nat) (rs : List http.Request) (σ : World) :
    rs.foldl (http.serve (handler r)) σ =
      ⟨σ.randPos + 16 * rs.length, σ.trace ++ served r σ.randPos rs⟩ := by
  induction rs generalizing σ with
  | nil => simp [served]
  | cons req rs ih =>
    rw [List.foldl_cons, ih, serve_handler]
    simp only [served, List.length_cons, List.append_assoc, List.singleton_append]
    congr 1
    omega

theorem served_length (r : Nat → Nat) (pos : Nat) (rs : List http.Request) :
    (served r pos rs).length = rs.length := by
  induction rs generalizing pos with
  | nil => rfl
  | cons req rs ih => simp [served, ih]

theorem served_not_stdout (r : Nat → Nat) (pos : Nat) (rs : List http.Request) :
    ∀ e ∈ served r pos rs, e.isStdout = false := by
  induction rs generalizing pos with
  | nil => simp [served]
  | cons req rs ih =>
    intro e he
    simp only [served, List.mem_cons] at he
    rcases he with rfl | he
    · rfl
    · exact ih _ e he

theorem served_get (r : Nat → Nat) (pos : Nat) (rs : List http.Request) (k : Nat)
    (req : http.Request) (h : rs[k]? = some req) :
    (served r pos rs)[k]? = some (Event.response req 200
      ("Hello, World!" ++ (uuid.NewRandomFromReader r (pos + 16 * k)).1.String)) := by
  induction rs generalizing pos k with
  | nil => simp at h
  | cons q rs ih =>
    cases k with
    | zero =>
      simp only [List.getElem?_cons_zero, Option.some.injEq] at h
      simp [served, h]
    | succ k =>
      simp only [List.getElem?_cons_succ] at h
      simp only [served, List.getElem?_cons_succ]
      rw [ih (pos + 16) k h]
      have hpos : pos + 16 + 16 * k = pos + 16 * (k + 1) := by omega
      rw [hpos]

theorem main_eq (env : Env) :
    main env =
      (if env.bindOk then Outcome.serving else Outcome.exited 0,
        if env.bindOk then
          ⟨16 + 16 * env.requests.length,
            [Event.stdout ("Hello, World!" ++
                (uuid.NewRandomFromReader env.rander 0).1.String ++ "\n"),
              Event.listen ":8080" true] ++ served env.rander 16 env.requests⟩
        else
          ⟨16, [Event.stdout ("Hello, World!" ++
                (uuid.NewRandomFromReader env.rander 0).1.String ++ "\n"),
              Event.listen ":8080" false]⟩) := by
  cases hb : env.bindOk <;>
    simp [main, http.ListenAndServe, hb, foldl_serve, fmt.Println, Sprintln_single, uuid.New,
      uuid.NewRandomFromReader, World.init]

theorem digit_mem (i : Nat) : hex.digit i ∈ hex.hextable.data := by
  by_cases h : i < 16
  · interval_cases i <;> decide
  · have : hex.hextable.data.length ≤ i := by
      have : hex.hextable.data.length = 16 := by decide
      omega
    simp only [hex.digit, List.getD_eq_default _ _ this]
    decide

theorem digit_inj {i j : Nat} (hi : i < 16) (hj : j < 16)
    (h : hex.digit i = hex.digit j) : i = j := by
  interval_cases i <;> interval_cases j <;> first | rfl | (exact absurd h (by decide))

theorem shift_four (a : Nat) : a >>> 4 = a / 16 := by
  simp [Nat.shiftRight_eq_div_pow]

theorem and_fifteen (a : Nat) : a &&& 0x0f = a % 16 :=
  Nat.and_pow_two_sub_one_eq_mod a 4

theorem Encode_mem (l : List Nat) : ∀ c ∈ hex.Encode l, c ∈ hex.hextable.data := by
  induction l with
  | nil => simp [hex.Encode]
  | cons v l ih =>
    intro c hc
    simp only [hex.Encode, List.mem_cons] at hc
    rcases hc with rfl | rfl | hc
    · exact digit_mem _
    · exact digit_mem _
    · exact ih c hc

theorem encodeHex_mem (u : uuid.UUID) :
    ∀ c ∈ uuid.encodeHex u, c = '-' ∨ c ∈ hex.hextable.data := by
  intro c hc
  simp only [uuid.encodeHex, List.mem_append, List.mem_cons] at hc
  rcases hc with (((hc | hc | hc) | hc | hc) | hc | hc) | hc | hc
  all_goals first | exact Or.inl hc | exact Or.inr (Encode_mem _ c hc)

theorem length_sixteen {l : List Nat} (h : l.length = 16) :
    ∃ b0 b1 b2 b3 b4 b5 b6 b7 b8 b9 b10 b11 b12 b13 b14 b15,
      l = [b0, b1, b2, b3, b4, b5, b6, b7, b8, b9, b10, b11, b12, b13, b14, b15] := by
  match l, h with
  | [b0, b1, b2, b3, b4, b5, b6, b7, b8, b9, b10, b11, b12, b13, b14, b15], _ =>
    exact ⟨b0, b1, b2, b3, b4, b5, b6, b7, b8, b9, b10, b11, b12, b13, b14, b15, rfl⟩

theorem encodeHex_sixteen (b0 b1 b2 b3 b4 b5 b6 b7 b8 b9 b10 b11 b12 b13 b14 b15 : Nat) :
    uuid.encodeHex ⟨[b0, b1, b2, b3, b4, b5, b6, b7, b8, b9, b10, b11, b12, b13, b14, b15]⟩ =
      [hex.digit (b0 >>> 4), hex.digit (b0 &&& 0x0f), hex.digit (b1 >>> 4), hex.digit (b1 &&& 0x0f),
       hex.digit (b2 >>> 4), hex.digit (b2 &&& 0x0f), hex.digit (b3 >>> 4), hex.digit (b3 &&& 0x0f),
       '-',
       hex.digit (b4 >>> 4), hex.digit (b4 &&& 0x0f), hex.digit (b5 >>> 4), hex.digit (b5 &&& 0x0f),
       '-',
       hex.digit (b6 >>> 4), hex.digit (b6 &&& 0x0f), hex.digit (b7 >>> 4), hex.digit (b7 &&& 0x0f),
       '-',
       hex.digit (b8 >>> 4), hex.digit (b8 &&& 0x0f), hex.digit (b9 >>> 4), hex.digit (b9 &&& 0x0f),
       '-',
       hex.digit (b10 >>> 4), hex.digit (b10 &&& 0x0f), hex.digit (b11 >>> 4),
       hex.digit (b11 &&& 0x0f), hex.digit (b12 >>> 4), hex.digit (b12 &&& 0x0f),
       hex.digit (b13 >>> 4), hex.digit (b13 &&& 0x0f), hex.digit (b14 >>> 4),
       hex.digit (b14 &&& 0x0f), hex.digit (b15 >>> 4), hex.digit (b15 &&& 0x0f)] :=
  rfl

theorem version_nibble (b : Nat) (h : b < 256) :
    ((b &&& 0x0f) ||| 0x40) >>> 4 = 4 ∧ ((b &&& 0x0f) ||| 0x40) &&& 0x0f = b &&& 0x0f ∧
    ((b &&& 0x0f) ||| 0x40) < 256 := by
  interval_cases b <;> decide

theorem variant_bits (b : Nat) (h : b < 256) :
    ((b &&& 0x3f) ||| 0x80) >>> 6 = 2 ∧ ((b &&& 0x3f) ||| 0x80) &&& 0x3f = b &&& 0x3f ∧
    ((b &&& 0x3f) ||| 0x80) < 256 ∧
    (((b &&& 0x3f) ||| 0x80) >>> 4 = 8 ∨ ((b &&& 0x3f) ||| 0x80) >>> 4 = 9 ∨
     ((b &&& 0x3f) ||| 0x80) >>> 4 = 10 ∨ ((b &&& 0x3f) ||| 0x80) >>> 4 = 11) := by
  interval_cases b <;> decide

theorem byte_of_digits {a b : Nat} (ha : a < 256) (hb : b < 256)
    (h1 : hex.digit (a >>> 4) = hex.digit (b >>> 4))
    (h2 : hex.digit (a &&& 0x0f) = hex.digit (b &&& 0x0f)) : a = b := by
  rw [shift_four, shift_four] at h1
  rw [and_fifteen, and_fifteen] at h2
  have e1 := digit_inj (by omega) (by omega) h1
  have e2 := digit_inj (Nat.mod_lt _ (by decide)) (Nat.mod_lt _ (by decide)) h2
  omega

theorem hextable_get {i : Nat} (h : i < 16) :
    hex.hextable.data[i]? = some (hex.digit i) := by
  interval_cases i <;> rfl

theorem NewRandomFromReader_bytes (r : Nat → Nat) (pos : Nat) :
    (uuid.NewRandomFromReader r pos).1.bytes =
      [r (pos + 0) % 256, r (pos + 1) % 256, r (pos + 2) % 256, r (pos + 3) % 256,
       r (pos + 4) % 256, r (pos + 5) % 256, (r (pos + 6) % 256 &&& 0x0f) ||| 0x40,
       r (pos + 7) % 256, (r (pos + 8) % 256 &&& 0x3f) ||| 0x80, r (pos + 9) % 256,
       r (pos + 10) % 256, r (pos + 11) % 256, r (pos + 12) % 256, r (pos + 13) % 256,
       r (pos + 14) % 256, r (pos + 15) % 256] := rfl

theorem NewRandomFromReader_WF (r : Nat → Nat) (pos : Nat) :
    (uuid.NewRandomFromReader r pos).1.WF := by
  have hm : ∀ n : Nat, n % 256 < 256 := fun n => Nat.mod_lt _ (by decide)
  refine ⟨by rw [NewRandomFromReader_bytes]; rfl, ?_⟩
  intro b hb
  rw [NewRandomFromReader_bytes] at hb
  simp only [List.mem_cons, List.mem_singleton, List.not_mem_nil, or_false] at hb
  rcases hb with h | h | h | h | h | h | h | h | h | h | h | h | h | h | h | h
  all_goals first
    | (rw [h]; exact hm _)
    | (rw [h]; exact (version_nibble _ (hm _)).2.2)
    | (rw [h]; exact (variant_bits _ (hm _)).2.2.1)

theorem encodeHex_inj {u v : uuid.UUID} (hu : u.WF) (hv : v.WF)
    (h : uuid.encodeHex u = uuid.encodeHex v) : u = v := by
  obtain ⟨ub⟩ := u
  obtain ⟨vb⟩ := v
  obtain ⟨hul, hub⟩ := hu
  obtain ⟨hvl, hvb⟩ := hv
  obtain ⟨a0, a1, a2, a3, a4, a5, a6, a7, a8, a9, a10, a11, a12, a13, a14, a15, rfl⟩ :=
    length_sixteen hul
  obtain ⟨b0, b1, b2, b3, b4, b5, b6, b7, b8, b9, b10, b11, b12, b13, b14, b15, rfl⟩ :=
    length_sixteen hvl
  rw [encodeHex_sixteen, encodeHex_sixteen] at h
  simp only [List.cons.injEq, and_true, true_and] at h
  simp only [List.mem_cons, List.mem_singleton, List.not_mem_nil, or_false, forall_eq_or_imp,
    forall_eq] at hub hvb
  obtain ⟨p0, q0, p1, q1, p2, q2, p3, q3, p4, q4, p5, q5, p6, q6, p7, q7, p8, q8, p9, q9,
    p10, q10, p11, q11, p12, q12, p13, q13, p14, q14, p15, q15⟩ := h
  obtain ⟨x0, x1, x2, x3, x4, x5, x6, x7, x8, x9, x10, x11, x12, x13, x14, x15⟩ := hub
  obtain ⟨y0, y1, y2, y3, y4, y5, y6, y7, y8, y9, y10, y11, y12, y13, y14, y15⟩ := hvb
  rw [byte_of_digits x0 y0 p0 q0, byte_of_digits x1 y1 p1 q1, byte_of_digits x2 y2 p2 q2,
    byte_of_digits x3 y3 p3 q3, byte_of_digits x4 y4 p4 q4, byte_of_digits x5 y5 p5 q5,
    byte_of_digits x6 y6 p6 q6, byte_of_digits x7 y7 p7 q7, byte_of_digits x8 y8 p8 q8,
    byte_of_digits x9 y9 p9 q9, byte_of_digits x10 y10 p10 q10, byte_of_digits x11 y11 p11 q11,
    byte_of_digits x12 y12 p12 q12, byte_of_digits x13 y13 p13 q13,
    byte_of_digits x14 y14 p14 q14, byte_of_digits x15 y15 p15 q15]

theorem greeting_inj {u v : uuid.UUID} (hu : u.WF) (hv : v.WF)
    (h : "Hello, World!" ++ u.String = "Hello, World!" ++ v.String) : u = v := by
  have hd := congrArg String.data h
  rw [String.data_append, String.data_append] at hd
  exact encodeHex_inj hu hv (List.append_cancel_left hd)

theorem encodeHex_length {u : uuid.UUID} (h : u.bytes.length = 16) :
    (uuid.encodeHex u).length = 36 := by
  obtain ⟨ub⟩ := u
  obtain ⟨a0, a1, a2, a3, a4, a5, a6, a7, a8, a9, a10, a11, a12, a13, a14, a15, rfl⟩ :=
    length_sixteen h
  rw [encodeHex_sixteen]
  rfl

theorem greeting_length {u : uuid.UUID} (h : u.bytes.length = 16) :
    ("Hello, World!" ++ u.String).length = 49 := by
  rw [String.length_append]
  show "Hello, World!".length + (uuid.encodeHex u).length = 49
  rw [encodeHex_length h]
  rfl

theorem hextable_hi {b : Nat} (h : b < 256) :
    hex.hextable.data[b / 16]? = some (hex.digit (b >>> 4)) := by
  rw [shift_four]
  exact hextable_get (by omega)

theorem hextable_lo (b : Nat) :
    hex.hextable.data[b % 16]? = some (hex.digit (b &&& 0x0f)) := by
  rw [and_fifteen]
  exact hextable_get (Nat.mod_lt _ (by decide))

theorem served_shape (r : Nat → Nat) (pos : Nat) (rs : List http.Request) :
    ∀ e ∈ served r pos rs, ∃ req u, req ∈ rs ∧
      e = Event.response req 200 ("Hello, World!" ++ uuid.UUID.String u) := by
  induction rs generalizing pos with
  | nil => simp [served]
  | cons q rs ih =>
    intro e he
    simp only [served, List.mem_cons] at he
    rcases he with rfl | he
    · exact ⟨q, _, List.mem_cons_self _ _, rfl⟩
    · obtain ⟨req, u, hreq, hu⟩ := ih _ e he
      exact ⟨req, u, List.mem_cons_of_mem _ hreq, hu⟩

theorem greeting_no_newline (u : uuid.UUID) :
    Char.ofNat 10 ∉ ("Hello, World!" ++ u.String).data := by
  intro h
  rw [String.data_append, List.mem_append] at h
  rcases h with h | h
  · exact absurd h (by decide)
  · rcases encodeHex_mem u _ h with h1 | h1
    · exact absurd h1 (by decide)
    · exact absurd h1 (by decide)

/-! ## The request handler -/

/-- C1: for every request (whatever its method, path, query, headers and body)
and every state of the entropy stream, the response the handler produces has
status 200 and a body that is exactly "Hello, World!" followed by the string
of the identifier generated for that request: the characters of the literal,
then the characters of the identifier, no newline anywhere, and this is the
response the server records for the request. -/
theorem C1_handler_response (rander : Nat → Nat) (req : http.Request) (σ : World) :
    (handler rander http.newResponse req σ).1.finishRequest.status = 200 ∧
    (handler rander http.newResponse req σ).1.finishRequest.body =
      "Hello, World!" ++ (uuid.New rander σ).1.String ∧
    (handler rander http.newResponse req σ).1.finishRequest.body.data =
      "Hello, World!".data ++ uuid.encodeHex (uuid.New rander σ).1 ∧
    Char.ofNat 10 ∉ (handler rander http.newResponse req σ).1.finishRequest.body.data ∧
    (http.serve (handler rander) σ req).trace =
      σ.trace ++ [Event.response req 200 ("Hello, World!" ++ (uuid.New rander σ).1.String)] := by
  rw [handler_eq, Write_new, serve_handler, New_fst]
  refine ⟨rfl, rfl, ?_, greeting_no_newline _, rfl⟩
  rw [String.data_append]
  rfl

/-- C2: the handler ignores the request: for any two requests, served in any two
states, if the identifier generator yields the same value for both then the
two responses (status and body) are equal. -/
theorem C2_request_ignored (rander1 rander2 : Nat → Nat) (r1 r2 : http.Request)
    (σ1 σ2 : World) (h : (uuid.New rander1 σ1).1 = (uuid.New rander2 σ2).1) :
    (handler rander1 http.newResponse r1 σ1).1.finishRequest =
      (handler rander2 http.newResponse r2 σ2).1.finishRequest := by
  rw [New_fst, New_fst] at h
  rw [handler_eq, handler_eq, Write_new, Write_new, h]

/-- C2 at GET / and POST /does/not/exist with a body, both drawing the same
identifier. -/
theorem C2_request_ignored_witness :
    (uuid.New (fun i => 7 * i + 3) ⟨0, []⟩).1 = (uuid.New (fun i => 7 * i + 3) ⟨0, []⟩).1 ∧
    (handler (fun i => 7 * i + 3) http.newResponse ⟨"GET", "/", "", [], ""⟩ ⟨0, []⟩).1.finishRequest =
      (handler (fun i => 7 * i + 3) http.newResponse
        ⟨"POST", "/does/not/exist", "a=1", [("Content-Type", "text/plain")], "payload"⟩
        ⟨0, []⟩).1.finishRequest :=
  ⟨rfl, C2_request_ignored _ _ _ _ _ _ rfl⟩

/-- C9: the handler carries no state between invocations.  After any finite
sequence of earlier requests, the response to a request is status 200 with
body "Hello, World!" followed by the identifier generated for it; it equals
the response the same request gets as the first request of any server that
generates the same identifier; and the earlier requests have changed nothing
but the read position of the entropy stream (16 bytes per request) and the
record of the responses sent. -/
theorem C9_handler_stateless (rander : Nat → Nat) (rs : List http.Request)
    (req : http.Request) (σ : World) :
    (handler rander http.newResponse req
        (rs.foldl (http.serve (handler rander)) σ)).1.finishRequest =
      ⟨true, 200, "Hello, World!" ++
        (uuid.New rander (rs.foldl (http.serve (handler rander)) σ)).1.String⟩ ∧
    (∀ (rander0 : Nat → Nat),
      (uuid.New rander0 World.init).1 =
          (uuid.New rander (rs.foldl (http.serve (handler rander)) σ)).1 →
        (handler rander0 http.newResponse req World.init).1.finishRequest =
          (handler rander http.newResponse req
            (rs.foldl (http.serve (handler rander)) σ)).1.finishRequest) ∧
    (rs.foldl (http.serve (handler rander)) σ).randPos = σ.randPos + 16 * rs.length ∧
    (∃ evs, (rs.foldl (http.serve (handler rander)) σ).trace = σ.trace ++ evs ∧
      evs.length = rs.length ∧
      ∀ e ∈ evs, ∃ q u, q ∈ rs ∧
        e = Event.response q 200 ("Hello, World!" ++ uuid.UUID.String u)) := by
  refine ⟨?_, ?_, ?_, ?_⟩
  · rw [handler_eq, Write_new, New_fst]
  · intro rander0 h
    rw [New_fst, New_fst] at h
    rw [handler_eq, handler_eq, Write_new, Write_new, h]
  · rw [foldl_serve]
  · rw [foldl_serve]
    exact ⟨_, rfl, served_length _ _ _, served_shape _ _ _⟩

/-! ## Startup and the listener -/

/-- C3 (as stated, refuted): with the bind failing, `main` returns normally and
the process exits with status 0, which is not an abnormal termination. -/
theorem C3_bind_failure_counterexample :
    (Env.mk (fun _ => 0) false []).bindOk = false ∧
    (main (Env.mk (fun _ => 0) false [])).1 = Outcome.exited 0 ∧
    (main (Env.mk (fun _ => 0) false [])).1.abnormal = false := by
  refine ⟨rfl, ?_, ?_⟩ <;> rw [main_eq] <;> rfl

/-- C3 (amended): if binding the listener fails, `ListenAndServe` returns an
error that `main` drops; `main` then returns and the process exits with
status 0.  There has been exactly one listen attempt, on ":8080", after the
startup line: no retry, no alternate port, no request served and no further
output, and 16 bytes of entropy used. -/
theorem C3_bind_failure_exits_normally (env : Env) (h : env.bindOk = false) :
    (main env).1 = Outcome.exited 0 ∧
    (main env).1.abnormal = false ∧
    (main env).2.trace =
      [Event.stdout ("Hello, World!" ++ (uuid.New env.rander World.init).1.String ++ "\n"),
        Event.listen ":8080" false] ∧
    (main env).2.randPos = 16 := by
  rw [main_eq, h]
  exact ⟨rfl, rfl, rfl, rfl⟩

/-- C3 (amended) at a run whose bind fails while a request is waiting. -/
theorem C3_bind_failure_exits_normally_witness :
    (Env.mk (fun i => i) false [⟨"GET", "/", "", [], ""⟩]).bindOk = false ∧
    (main (Env.mk (fun i => i) false [⟨"GET", "/", "", [], ""⟩])).1 = Outcome.exited 0 :=
  ⟨rfl, (C3_bind_failure_exits_normally _ rfl).1⟩

/-- C6: every run of `main` begins with one write to standard output, of the
line "Hello, World!" followed by a freshly generated identifier and a single
newline; the next event is the listener start on ":8080"; no later event is a
write to standard output, so the whole run has exactly one; and a handler
invocation leaves the event trace as it found it. -/
theorem C6_startup_line_once (env : Env) :
    (∃ rest, (main env).2.trace =
        Event.stdout ("Hello, World!" ++ (uuid.New env.rander World.init).1.String ++ "\n") ::
          Event.listen ":8080" env.bindOk :: rest ∧
        ∀ e ∈ rest, e.isStdout = false) ∧
    (main env).2.trace.countP Event.isStdout = 1 ∧
    (∀ w req σ, (handler env.rander w req σ).2.trace = σ.trace) ∧
    (∀ addr σ, ∃ evs, (http.ListenAndServe env addr (handler env.rander) σ).2.trace =
        σ.trace ++ Event.listen addr env.bindOk :: evs ∧ ∀ e ∈ evs, e.isStdout = false) := by
  have hcount : ∀ l : List Event, (∀ e ∈ l, e.isStdout = false) →
      l.countP Event.isStdout = 0 := by
    intro l hl
    rw [List.countP_eq_zero]
    intro e he
    simp [hl e he]
  refine ⟨?_, ?_, ?_, ?_⟩
  · rw [main_eq]
    cases hb : env.bindOk
    · exact ⟨[], rfl, by simp⟩
    · exact ⟨served env.rander 16 env.requests, rfl, served_not_stdout _ _ _⟩
  · rw [main_eq]
    cases hb : env.bindOk
    · rfl
    · simp only [if_true, List.cons_append, List.nil_append, List.countP_cons,
        hcount _ (served_not_stdout env.rander 16 env.requests)]
      rfl
  · intro w req σ
    rw [handler_eq]
  · intro addr σ
    cases hb : env.bindOk
    · exact ⟨[], by simp [http.ListenAndServe, hb], by simp⟩
    · refine ⟨served env.rander σ.randPos env.requests, ?_, served_not_stdout _ _ _⟩
      simp [http.ListenAndServe, hb, foldl_serve]

/-- C7: with the random source read as a sequence of 16-byte draws, the startup
line carries the identifier of draw 0 and the response to the k-th request
(counting from 0) carries the identifier of draw k + 1, read during that
invocation; after n requests exactly n + 1 draws have been consumed; an
identifier depends on the 16 bytes of its own draw only; and a handler
invocation leaves nothing behind but the advanced read position. -/
theorem C7_one_identifier_per_invocation (env : Env) (h : env.bindOk = true) :
    (main env).2.trace[0]? =
      some (Event.stdout ("Hello, World!" ++
        (uuid.NewRandomFromReader env.rander 0).1.String ++ "\n")) ∧
    (∀ k req, env.requests[k]? = some req →
      (main env).2.trace[k + 2]? =
        some (Event.response req 200 ("Hello, World!" ++
          (uuid.NewRandomFromReader env.rander (16 * (k + 1))).1.String))) ∧
    (main env).2.randPos = 16 * (env.requests.length + 1) ∧
    (main env).2.trace.length = env.requests.length + 2 ∧
    (∀ (r1 r2 : Nat → Nat) (pos : Nat), (∀ i, i < 16 → r1 (pos + i) = r2 (pos + i)) →
      (uuid.NewRandomFromReader r1 pos).1 = (uuid.NewRandomFromReader r2 pos).1) ∧
    (∀ w req σ, (handler env.rander w req σ).2 = ⟨σ.randPos + 16, σ.trace⟩) := by
  refine ⟨?_, ?_, ?_, ?_, ?_, ?_⟩
  · rw [main_eq, h]; rfl
  · intro k req hk
    rw [main_eq, h]
    simp only [if_true, List.cons_append, List.nil_append, List.getElem?_cons_succ]
    rw [served_get _ _ _ _ _ hk]
    have hpos : 16 + 16 * k = 16 * (k + 1) := by omega
    rw [hpos]
  · rw [main_eq, h]
    simp only [if_true]
    omega
  · rw [main_eq, h]
    simp [served_length]
  · intro r1 r2 pos hr
    simp only [uuid.NewRandomFromReader, ReadFull_sixteen]
    rw [hr 0 (by omega), hr 1 (by omega), hr 2 (by omega), hr 3 (by omega), hr 4 (by omega),
      hr 5 (by omega), hr 6 (by omega), hr 7 (by omega), hr 8 (by omega), hr 9 (by omega),
      hr 10 (by omega), hr 11 (by omega), hr 12 (by omega), hr 13 (by omega), hr 14 (by omega),
      hr 15 (by omega)]
  · intro w req σ
    rw [handler_eq]

/-- C7 at a run with two requests: the second response carries draw 2. -/
theorem C7_one_identifier_per_invocation_witness :
    (Env.mk (fun i => 7 * i + 250) true
      [⟨"GET", "/", "", [], ""⟩, ⟨"GET", "/", "", [], ""⟩]).bindOk = true ∧
    (main (Env.mk (fun i => 7 * i + 250) true
      [⟨"GET", "/", "", [], ""⟩, ⟨"GET", "/", "", [], ""⟩])).2.randPos = 16 * (2 + 1) :=
  ⟨rfl, (C7_one_identifier_per_invocation _ rfl).2.2.1⟩

/-! ## The identifier generator -/

/-- C4: for every 128-bit value (16 bytes), the identifier string has exactly 36
characters; the characters at indexes 8, 13, 18 and 23 are hyphens; each of
the other 32 characters is a hexadecimal digit; byte j is encoded, in order,
by the two digits at index digitPos j (high nibble) and digitPos j + 1 (low
nibble); hence every response body of the handler has exactly 49 characters. -/
theorem C4_identifier_layout (u : uuid.UUID) (h : u.WF) :
    u.String.length = 36 ∧
    u.String.data[8]? = some '-' ∧ u.String.data[13]? = some '-' ∧
    u.String.data[18]? = some '-' ∧ u.String.data[23]? = some '-' ∧
    (∀ i, i < 36 → i ≠ 8 → i ≠ 13 → i ≠ 18 → i ≠ 23 →
      ∃ c, u.String.data[i]? = some c ∧ c ∈ hex.hextable.data) ∧
    (∀ j, j < 16 →
      u.String.data[digitPos j]? = hex.hextable.data[u.bytes.getD j 0 / 16]? ∧
      u.String.data[digitPos j + 1]? = hex.hextable.data[u.bytes.getD j 0 % 16]? ∧
      u.bytes.getD j 0 / 16 < 16) ∧
    (∀ (rander : Nat → Nat) (req : http.Request) (σ : World),
      (handler rander http.newResponse req σ).1.finishRequest.body.length = 49) := by
  obtain ⟨ub⟩ := u
  obtain ⟨hl, hb⟩ := h
  obtain ⟨a0, a1, a2, a3, a4, a5, a6, a7, a8, a9, a10, a11, a12, a13, a14, a15, rfl⟩ :=
    length_sixteen hl
  simp only [List.mem_cons, List.mem_singleton, List.not_mem_nil, or_false, forall_eq_or_imp,
    forall_eq] at hb
  obtain ⟨x0, x1, x2, x3, x4, x5, x6, x7, x8, x9, x10, x11, x12, x13, x14, x15⟩ := hb
  have hs := encodeHex_sixteen a0 a1 a2 a3 a4 a5 a6 a7 a8 a9 a10 a11 a12 a13 a14 a15
  refine ⟨?_, ?_, ?_, ?_, ?_, ?_, ?_, ?_⟩
  · exact encodeHex_length hl
  · show (uuid.encodeHex _)[8]? = _
    rw [hs]; rfl
  · show (uuid.encodeHex _)[13]? = _
    rw [hs]; rfl
  · show (uuid.encodeHex _)[18]? = _
    rw [hs]; rfl
  · show (uuid.encodeHex _)[23]? = _
    rw [hs]; rfl
  · intro i hi h8 h13 h18 h23
    show ∃ c, (uuid.encodeHex _)[i]? = some c ∧ _
    rw [hs]
    interval_cases i
    all_goals first
      | exact absurd rfl h8
      | exact absurd rfl h13
      | exact absurd rfl h18
      | exact absurd rfl h23
      | exact ⟨_, rfl, digit_mem _⟩
  · intro j hj
    show (uuid.encodeHex _)[digitPos j]? = _ ∧ (uuid.encodeHex _)[digitPos j + 1]? = _ ∧ _
    rw [hs]
    interval_cases j
    · exact ⟨(hextable_hi x0).symm, (hextable_lo a0).symm, Nat.div_lt_of_lt_mul x0⟩
    · exact ⟨(hextable_hi x1).symm, (hextable_lo a1).symm, Nat.div_lt_of_lt_mul x1⟩
    · exact ⟨(hextable_hi x2).symm, (hextable_lo a2).symm, Nat.div_lt_of_lt_mul x2⟩
    · exact ⟨(hextable_hi x3).symm, (hextable_lo a3).symm, Nat.div_lt_of_lt_mul x3⟩
    · exact ⟨(hextable_hi x4).symm, (hextable_lo a4).symm, Nat.div_lt_of_lt_mul x4⟩
    · exact ⟨(hextable_hi x5).symm, (hextable_lo a5).symm, Nat.div_lt_of_lt_mul x5⟩
    · exact ⟨(hextable_hi x6).symm, (hextable_lo a6).symm, Nat.div_lt_of_lt_mul x6⟩
    · exact ⟨(hextable_hi x7).symm, (hextable_lo a7).symm, Nat.div_lt_of_lt_mul x7⟩
    · exact ⟨(hextable_hi x8).symm, (hextable_lo a8).symm, Nat.div_lt_of_lt_mul x8⟩
    · exact ⟨(hextable_hi x9).symm, (hextable_lo a9).symm, Nat.div_lt_of_lt_mul x9⟩
    · exact ⟨(hextable_hi x10).symm, (hextable_lo a10).symm, Nat.div_lt_of_lt_mul x10⟩
    · exact ⟨(hextable_hi x11).symm, (hextable_lo a11).symm, Nat.div_lt_of_lt_mul x11⟩
    · exact ⟨(hextable_hi x12).symm, (hextable_lo a12).symm, Nat.div_lt_of_lt_mul x12⟩
    · exact ⟨(hextable_hi x13).symm, (hextable_lo a13).symm, Nat.div_lt_of_lt_mul x13⟩
    · exact ⟨(hextable_hi x14).symm, (hextable_lo a14).symm, Nat.div_lt_of_lt_mul x14⟩
    · exact ⟨(hextable_hi x15).symm, (hextable_lo a15).symm, Nat.div_lt_of_lt_mul x15⟩
  · intro rander req σ
    rw [handler_eq, Write_new]
    exact greeting_length (NewRandomFromReader_WF _ _).1

/-- C4 at the identifier with bytes 0x00, 0x11, ..., 0xff. -/
theorem C4_identifier_layout_witness :
    (uuid.UUID.mk [0, 17, 34, 51, 68, 85, 102, 119, 136, 153, 170, 187, 204, 221, 238, 255]).WF ∧
    (uuid.UUID.mk [0, 17, 34, 51, 68, 85, 102, 119, 136, 153, 170, 187, 204, 221, 238,
      255]).String.length = 36 :=
  ⟨by decide, (C4_identifier_layout _ (by decide)).1⟩

/-- C5: for every 16 bytes drawn from the entropy stream, the generated
identifier is a well-formed 128-bit value whose version nibble is 4 (the
character at index 14 of the string is '4') and whose two top variant bits are
10 (the character at index 19 is one of '8', '9', 'a', 'b'); the low nibble of
byte 6, the low six bits of byte 8 and the other fourteen bytes, 122 bits in
all, are the bytes drawn, unchanged; and every sequence of 16 bytes is a
possible draw. -/
theorem C5_version_variant (r : Nat → Nat) (σ : World) :
    (uuid.New r σ).1.WF ∧
    (uuid.New r σ).1.String.data[14]? = some '4' ∧
    ((uuid.New r σ).1.String.data[19]? = some '8' ∨
      (uuid.New r σ).1.String.data[19]? = some '9' ∨
      (uuid.New r σ).1.String.data[19]? = some 'a' ∨
      (uuid.New r σ).1.String.data[19]? = some 'b') ∧
    (uuid.New r σ).1.bytes.getD 6 0 >>> 4 = 4 ∧
    (uuid.New r σ).1.bytes.getD 8 0 >>> 6 = 2 ∧
    (uuid.New r σ).1.bytes.getD 6 0 &&& 0x0f = (io.ReadFull r σ.randPos 16).getD 6 0 &&& 0x0f ∧
    (uuid.New r σ).1.bytes.getD 8 0 &&& 0x3f = (io.ReadFull r σ.randPos 16).getD 8 0 &&& 0x3f ∧
    (∀ i, i < 16 → i ≠ 6 → i ≠ 8 →
      (uuid.New r σ).1.bytes[i]? = (io.ReadFull r σ.randPos 16)[i]?) ∧
    (∀ raw : List Nat, raw.length = 16 → (∀ b ∈ raw, b < 256) →
      ∃ r0 : Nat → Nat, io.ReadFull r0 σ.randPos 16 = raw) := by
  have hm : ∀ n : Nat, n % 256 < 256 := fun n => Nat.mod_lt _ (by decide)
  have hver := version_nibble (r (σ.randPos + 6) % 256) (hm _)
  have hvar := variant_bits (r (σ.randPos + 8) % 256) (hm _)
  have hs : (uuid.New r σ).1.String.data = uuid.encodeHex ⟨_⟩ :=
    congrArg (fun l => uuid.encodeHex ⟨l⟩) (NewRandomFromReader_bytes r σ.randPos)
  rw [encodeHex_sixteen] at hs
  refine ⟨NewRandomFromReader_WF _ _, ?_, ?_, hver.1, hvar.1, hver.2.1, hvar.2.1, ?_, ?_⟩
  · rw [hs]
    show some (hex.digit _) = some '4'
    rw [hver.1]
    rfl
  · rw [hs]
    show some (hex.digit _) = some '8' ∨ some (hex.digit _) = some '9' ∨
      some (hex.digit _) = some 'a' ∨ some (hex.digit _) = some 'b'
    rcases hvar.2.2.2 with h | h | h | h <;> rw [h]
    · exact Or.inl rfl
    · exact Or.inr (Or.inl rfl)
    · exact Or.inr (Or.inr (Or.inl rfl))
    · exact Or.inr (Or.inr (Or.inr rfl))
  · intro i hi h6 h8
    rw [New_fst, NewRandomFromReader_bytes, ReadFull_sixteen]
    interval_cases i
    all_goals first
      | exact absurd rfl h6
      | exact absurd rfl h8
      | rfl
  · intro raw hl hb
    obtain ⟨a0, a1, a2, a3, a4, a5, a6, a7, a8, a9, a10, a11, a12, a13, a14, a15, rfl⟩ :=
      length_sixteen hl
    simp only [List.mem_cons, List.mem_singleton, List.not_mem_nil, or_false, forall_eq_or_imp,
      forall_eq] at hb
    obtain ⟨x0, x1, x2, x3, x4, x5, x6, x7, x8, x9, x10, x11, x12, x13, x14, x15⟩ := hb
    refine ⟨fun i =>
      [a0, a1, a2, a3, a4, a5, a6, a7, a8, a9, a10, a11, a12, a13, a14, a15].getD
        (i - σ.randPos) 0, ?_⟩
    rw [ReadFull_sixteen]
    simp only [Nat.add_sub_cancel_left]
    simp [Nat.mod_eq_of_lt, x0, x1, x2, x3, x4, x5, x6, x7, x8, x9, x10, x11, x12, x13, x14, x15]

/-- C8: whenever the identifier values generated for two requests differ, the
two response bodies differ and so do their identifier suffixes (the body
after its first 13 characters); formatting a well-formed identifier and
putting "Hello, World!" in front of it is injective. -/
theorem C8_distinct_identifiers_distinct_bodies (rander1 rander2 : Nat → Nat)
    (r1 r2 : http.Request) (σ1 σ2 : World)
    (h : (uuid.New rander1 σ1).1 ≠ (uuid.New rander2 σ2).1) :
    (handler rander1 http.newResponse r1 σ1).1.finishRequest.body ≠
      (handler rander2 http.newResponse r2 σ2).1.finishRequest.body ∧
    (handler rander1 http.newResponse r1 σ1).1.finishRequest.body.data.drop 13 ≠
      (handler rander2 http.newResponse r2 σ2).1.finishRequest.body.data.drop 13 ∧
    (handler rander1 http.newResponse r1 σ1).1.finishRequest.body.data.drop 13 =
      (uuid.New rander1 σ1).1.String.data ∧
    (∀ u v : uuid.UUID, u.WF → v.WF →
      "Hello, World!" ++ u.String = "Hello, World!" ++ v.String → u = v) := by
  rw [New_fst, New_fst] at h
  rw [handler_eq, handler_eq, Write_new, Write_new, New_fst]
  have hdrop : ∀ u : uuid.UUID,
      ("Hello, World!" ++ u.String).data.drop 13 = uuid.encodeHex u := by
    intro u
    rw [String.data_append]
    rfl
  refine ⟨?_, ?_, ?_, ?_⟩
  · intro hb
    exact h (greeting_inj (NewRandomFromReader_WF _ _) (NewRandomFromReader_WF _ _) hb)
  · intro hb
    rw [hdrop, hdrop] at hb
    exact h (encodeHex_inj (NewRandomFromReader_WF _ _) (NewRandomFromReader_WF _ _) hb)
  · exact hdrop _
  · intro u v hu hv huv
    exact greeting_inj hu hv huv

/-- C8 at two requests to the same path whose draws differ. -/
theorem C8_distinct_identifiers_distinct_bodies_witness :
    (uuid.New (fun i => i) World.init).1 ≠ (uuid.New (fun i => i + 1) World.init).1 ∧
    (handler (fun i => i) http.newResponse ⟨"GET", "/", "", [], ""⟩
        World.init).1.finishRequest.body ≠
      (handler (fun i => i + 1) http.newResponse ⟨"GET", "/", "", [], ""⟩
        World.init).1.finishRequest.body :=
  ⟨by decide, (C8_distinct_identifiers_distinct_bodies _ _ _ _ _ _ (by decide)).1⟩

end Articles
